import Mathlib

/-!
Verification of `projects/DensePose/apply_net_cust.py` (ShowAction pipeline).

The pipeline remaps a 25-class per-pixel body-part label array with a fixed
left/right symmetry table (in-place masked assignments on a numpy array),
colorizes the merged labels through a colormap with a background-correction
step, composites the result onto a white canvas at the detection bounding
box, extracts per-part contours, and doubles every emitted raster before
vectorization.

Arrays are modelled as lists of rows (`Grid`); pixel values are `Nat`
(numpy `uint8` values stay far below 256 in every claim's domain, so no
wraparound occurs and `Nat` is faithful).  The OpenCV colormap
(`cv2.applyColorMap` with `COLORMAP_PARULA`) and contour tracer
(`cv2.findContours`) are external library calls, modelled as explicit
function parameters.
-/

namespace ApplyNet

/-- A pixel color: the (B, G, R) channel triple of a `uint8[3]` numpy pixel. -/
abbrev Color := Nat × Nat × Nat

/-- A 2-D image: list of rows. -/
abbrev Grid (α : Type) := List (List α)

/-- Elementwise map over a 2-D array (what a numpy vectorized op does). -/
def mapGrid (f : α → β) (g : Grid α) : Grid β :=
  g.map (fun row => row.map f)

/-- Pixel of a label array at row `i`, column `j` (default 0 out of range). -/
def gget (g : Grid Nat) (i j : Nat) : Nat :=
  (g.getD i []).getD j 0

/-- Pixel of a color image at row `i`, column `j` (default white out of range). -/
def cget (g : Grid Color) (i j : Nat) : Color :=
  (g.getD i []).getD j (255, 255, 255)

theorem mapGrid_length (f : α → β) (g : Grid α) :
    (mapGrid f g).length = g.length := by
  simp [mapGrid]

theorem mapGrid_getD (f : α → β) (g : Grid α) (i : Nat) (hi : i < g.length) :
    (mapGrid f g).getD i [] = (g.getD i []).map f := by
  unfold mapGrid
  rw [List.getD_eq_getElem _ _ (by simpa using hi), List.getElem_map,
    List.getD_eq_getElem _ _ hi]

theorem mapGrid_comp (f : α → β) (h : β → γ) (g : Grid α) :
    mapGrid h (mapGrid f g) = mapGrid (fun v => h (f v)) g := by
  simp [mapGrid, List.map_map, Function.comp]

theorem mapGrid_congr (f f' : α → β) (g : Grid α)
    (h : ∀ row ∈ g, ∀ v ∈ row, f v = f' v) : mapGrid f g = mapGrid f' g := by
  unfold mapGrid
  exact List.map_congr_left fun row hrow => List.map_congr_left fun v hv => h row hrow v hv

/-! ## LabelRemapper

`execute_on_outputs` lines 379-388 perform ten in-place masked assignments
on the `uint8` label array `I`, in this textual order:

    I[I == 2] = 1;  I[I == 17] = 15; I[I == 18] = 16; I[I == 7] = 9
    I[I == 8] = 10; I[I == 11] = 13; I[I == 12] = 14; I[I == 19] = 21
    I[I == 20] = 22; I[I == 24] = 23
-/

/-- The pointwise effect of one masked assignment `I[I == src] = tgt`. -/
def stepPoint (src tgt v : Nat) : Nat := if v = src then tgt else v

/-- One numpy masked assignment `I[I == src] = tgt`: every pixel equal to
`src` becomes `tgt`, all other pixels are untouched. -/
def remapStep (src tgt : Nat) (g : Grid Nat) : Grid Nat :=
  mapGrid (stepPoint src tgt) g

/-- The ten masked assignments of lines 379-388, in source order
(innermost application first). -/
def remapSeq (g : Grid Nat) : Grid Nat :=
  remapStep 24 23 (remapStep 20 22 (remapStep 19 21 (remapStep 12 14
    (remapStep 11 13 (remapStep 8 10 (remapStep 7 9 (remapStep 18 16
      (remapStep 17 15 (remapStep 2 1 g)))))))))

/-- The pointwise composition of the ten assignments in source order. -/
def remapPoint (v : Nat) : Nat :=
  stepPoint 24 23 (stepPoint 20 22 (stepPoint 19 21 (stepPoint 12 14
    (stepPoint 11 13 (stepPoint 8 10 (stepPoint 7 9 (stepPoint 18 16
      (stepPoint 17 15 (stepPoint 2 1 v)))))))))

/-- Modelled from the spec: the single elementwise symmetry lookup table
{2→1, 17→15, 18→16, 7→9, 8→10, 11→13, 12→14, 19→21, 20→22, 24→23},
identity elsewhere — stated for the refinement claim comparing it with the
sequential masked assignments of the code. -/
def symmetryTable (v : Nat) : Nat :=
  if v = 2 then 1
  else if v = 17 then 15
  else if v = 18 then 16
  else if v = 7 then 9
  else if v = 8 then 10
  else if v = 11 then 13
  else if v = 12 then 14
  else if v = 19 then 21
  else if v = 20 then 22
  else if v = 24 then 23
  else v

theorem remapSeq_eq_mapGrid_remapPoint (g : Grid Nat) :
    remapSeq g = mapGrid remapPoint g := by
  simp only [remapSeq, remapStep, mapGrid_comp]
  rfl

theorem remapPoint_eq_symmetryTable (v : Nat) :
    remapPoint v = symmetryTable v := by
  rcases Nat.lt_or_ge v 25 with h | h
  · revert h
    revert v
    decide
  · have hne : v ≠ 2 ∧ v ≠ 17 ∧ v ≠ 18 ∧ v ≠ 7 ∧ v ≠ 8 ∧ v ≠ 11 ∧ v ≠ 12 ∧
        v ≠ 19 ∧ v ≠ 20 ∧ v ≠ 24 := by omega
    obtain ⟨h1, h2, h3, h4, h5, h6, h7, h8, h9, h10⟩ := hne
    simp [remapPoint, stepPoint, symmetryTable, h1, h2, h3, h4, h5, h6, h7, h8, h9, h10]

/-- Labels above 24 match none of the ten masks, so the composed assignment
leaves them untouched. -/
theorem remapPoint_of_gt (v : Nat) (h : 24 < v) : remapPoint v = v := by
  have hne : v ≠ 2 ∧ v ≠ 17 ∧ v ≠ 18 ∧ v ≠ 7 ∧ v ≠ 8 ∧ v ≠ 11 ∧ v ≠ 12 ∧
      v ≠ 19 ∧ v ≠ 20 ∧ v ≠ 24 := by omega
  obtain ⟨h1, h2, h3, h4, h5, h6, h7, h8, h9, h10⟩ := hne
  simp [remapPoint, stepPoint, h1, h2, h3, h4, h5, h6, h7, h8, h9, h10]

/-- The values that the ten masked assignments can leave in the array when
the input is within 0..24: the identity values minus the ten folded-away
sources, together with the ten targets. -/
def mergedCodomain : List Nat := [0, 1, 3, 4, 5, 6, 9, 10, 13, 14, 15, 16, 21, 22, 23]

/-- C1: on label arrays with values in 0..24, the ten in-place masked
assignments, executed in their source order, preserve the array shape and
coincide with a single elementwise lookup of the symmetry table — no
assignment re-remaps a value produced by an earlier assignment. -/
theorem remap_seq_is_single_lookup (g : Grid Nat)
    (h : ∀ row ∈ g, ∀ v ∈ row, v ≤ 24) :
    (remapSeq g).length = g.length ∧
    (∀ i, i < g.length → ((remapSeq g).getD i []).length = (g.getD i []).length) ∧
    remapSeq g = mapGrid symmetryTable g := by
  have heq : remapSeq g = mapGrid symmetryTable g := by
    rw [remapSeq_eq_mapGrid_remapPoint]
    exact mapGrid_congr _ _ g fun row _ v _ => remapPoint_eq_symmetryTable v
  refine ⟨?_, ?_, heq⟩
  · rw [heq, mapGrid_length]
  · intro i hi
    rw [heq, mapGrid_getD _ _ _ hi, List.length_map]

theorem remap_seq_is_single_lookup_witness :
    (∀ row ∈ ([[2, 17, 18], [7, 8, 11], [12, 19, 20], [24, 0, 5]] : Grid Nat),
      ∀ v ∈ row, v ≤ 24) ∧
    remapSeq [[2, 17, 18], [7, 8, 11], [12, 19, 20], [24, 0, 5]] =
      mapGrid symmetryTable [[2, 17, 18], [7, 8, 11], [12, 19, 20], [24, 0, 5]] :=
  ⟨by decide, (remap_seq_is_single_lookup _ (by decide)).2.2⟩

/-- C2 counterexample: the input pixel 24 is within 0..24, yet the remapped
array contains 23, which is not in {0..15}; the merged codomain is not
contained in {0..15}. -/
theorem remap_codomain_exceeds_15 :
    (∀ row ∈ ([[24]] : Grid Nat), ∀ v ∈ row, v ≤ 24) ∧
    ¬ (∀ row ∈ remapSeq [[24]], ∀ v ∈ row, v ≤ 15) := by decide

/-- C2 amended: on label arrays with values in 0..24, every pixel of the
remapped array lies in {0, 1, 3, 4, 5, 6, 9, 10, 13, 14, 15, 16, 21, 22, 23}
(the identity values minus the ten folded-away sources). -/
theorem remap_codomain_mem (g : Grid Nat)
    (h : ∀ row ∈ g, ∀ v ∈ row, v ≤ 24) :
    ∀ row ∈ remapSeq g, ∀ v ∈ row, v ∈ mergedCodomain := by
  have hb : ∀ w, w < 25 → remapPoint w ∈ mergedCodomain := by decide
  rw [remapSeq_eq_mapGrid_remapPoint]
  simp only [mapGrid]
  intro row hrow v hv
  obtain ⟨row0, hrow0, rfl⟩ := List.mem_map.mp hrow
  obtain ⟨v0, hv0, rfl⟩ := List.mem_map.mp hv
  exact hb v0 (Nat.lt_succ_of_le (h row0 hrow0 v0 hv0))

theorem remap_codomain_mem_witness :
    (∀ row ∈ ([[24, 16, 0], [2, 23, 7]] : Grid Nat), ∀ v ∈ row, v ≤ 24) ∧
    (∀ row ∈ remapSeq [[24, 16, 0], [2, 23, 7]], ∀ v ∈ row, v ∈ mergedCodomain) :=
  ⟨by decide, remap_codomain_mem _ (by decide)⟩

/-- C4 counterexample: the out-of-domain pixel 25 is not rejected — the
remapping (a total sequence of masked assignments with no validation)
passes it through unchanged, raising no error. -/
theorem remap_out_of_range_passes_through :
    ¬ (25 : Nat) ≤ 24 ∧ remapSeq [[25]] = [[25]] := by decide

/-- C4 amended: the remapping performs no domain validation; it is total,
and any pixel value above 24 (hence outside every mask) is silently passed
through unchanged rather than rejected. -/
theorem remap_no_validation (g : Grid Nat) (i j : Nat)
    (h : 24 < gget g i j) : gget (remapSeq g) i j = gget g i j := by
  rw [remapSeq_eq_mapGrid_remapPoint]
  by_cases hi : i < g.length
  · by_cases hj : j < (g.getD i []).length
    · unfold gget
      rw [mapGrid_getD _ _ _ hi, List.getD_eq_getElem _ _ (by simpa using hj),
        List.getElem_map, ← List.getD_eq_getElem _ _ hj]
      exact remapPoint_of_gt _ h
    · exfalso
      have : gget g i j = 0 := by
        unfold gget
        rw [List.getD_eq_default _ _ (by omega)]
      omega
  · exfalso
    have hrow : g.getD i [] = ([] : List Nat) := List.getD_eq_default _ _ (by omega)
    have : gget g i j = 0 := by
      unfold gget
      rw [hrow]
      simp
    omega

theorem remap_no_validation_witness :
    24 < gget [[25]] 0 0 ∧ gget (remapSeq [[25]]) 0 0 = gget [[25]] 0 0 :=
  ⟨by decide, remap_no_validation [[25]] 0 0 (by decide)⟩

/-- C8: remapping an already-remapped array is a no-op — every value of the
merged codomain is a fixed point of the ten masked assignments. -/
theorem remap_idempotent (g : Grid Nat)
    (h : ∀ row ∈ g, ∀ v ∈ row, v ≤ 24) :
    remapSeq (remapSeq g) = remapSeq g := by
  have hb : ∀ w, w < 25 → remapPoint (remapPoint w) = remapPoint w := by decide
  rw [remapSeq_eq_mapGrid_remapPoint g, remapSeq_eq_mapGrid_remapPoint, mapGrid_comp]
  exact mapGrid_congr _ _ g fun row hrow v hv => hb v (Nat.lt_succ_of_le (h row hrow v hv))

theorem remap_idempotent_witness :
    (∀ row ∈ ([[2, 17, 24], [0, 15, 23]] : Grid Nat), ∀ v ∈ row, v ≤ 24) ∧
    remapSeq (remapSeq [[2, 17, 24], [0, 15, 23]]) = remapSeq [[2, 17, 24], [0, 15, 23]] :=
  ⟨by decide, remap_idempotent _ (by decide)⟩

/-! ## Colorizer  (lines 418-428)

    I = I.astype(np.float32) * 10.625
    I = I.astype(np.uint8)
    CMAP = cv2.COLORMAP_PARULA
    I = cv2.applyColorMap(I, CMAP)
    my_array = cv2.applyColorMap(np.asarray([[[0, 0, 0]]], dtype=np.uint8), CMAP)
    bg = my_array[0][0]
    I[np.all(I == bg, axis=-1)] = [255, 255, 255]

The PARULA colormap lives inside OpenCV, so it is modelled as an abstract
intensity → color function `cmap`; `applyColorMap` on the 1×1 zero image
yields `cmap 0`. -/

/-- Scaling of a merged label to an 8-bit intensity: 10.625 = 85/8 is exact
in `float32` and so is the product for the label values 0..24 at hand, so
the `float32` multiply followed by truncation to `uint8` equals `Nat`
division by 8 after multiplying by 85. -/
def intensity (v : Nat) : Nat := 85 * v / 8

/-- The solid white pixel `[255, 255, 255]`. -/
def white : Color := (255, 255, 255)

/-- `cv2.applyColorMap(I, CMAP)` after the intensity scaling. -/
def colorize (cmap : Nat → Color) (g : Grid Nat) : Grid Color :=
  mapGrid (fun v => cmap (intensity v)) g

/-- `bg = cv2.applyColorMap(np.asarray([[[0,0,0]]]), CMAP)[0][0]`: the
colormap's color for intensity 0. -/
def bgOf (cmap : Nat → Color) : Color := cmap 0

/-- `I[np.all(I == bg, axis=-1)] = [255, 255, 255]`: every pixel equal to
the intensity-0 color becomes solid white. -/
def bgCorrect (cmap : Nat → Color) (img : Grid Color) : Grid Color :=
  mapGrid (fun c => if c = bgOf cmap then white else c) img

/-- The colorizer followed by the background correction. -/
def finalColor (cmap : Nat → Color) (g : Grid Nat) : Grid Color :=
  bgCorrect cmap (colorize cmap g)

theorem finalColor_eq (cmap : Nat → Color) (g : Grid Nat) :
    finalColor cmap g =
      mapGrid (fun v => if cmap (intensity v) = bgOf cmap then white
        else cmap (intensity v)) g := by
  unfold finalColor bgCorrect colorize
  rw [mapGrid_comp]

theorem cget_mapGrid (f : Nat → Color) (g : Grid Nat) (i j : Nat)
    (hi : i < g.length) (hj : j < (g.getD i []).length) :
    cget (mapGrid f g) i j = f (gget g i j) := by
  unfold cget gget
  rw [mapGrid_getD _ _ _ hi, List.getD_eq_getElem _ _ (by simpa using hj),
    List.getElem_map, ← List.getD_eq_getElem _ _ hj]

/-- Any pixel whose scaled intensity colorizes to exactly the intensity-0
color ends up solid white after the correction step. -/
theorem cget_finalColor_of_collision (cmap : Nat → Color) (g : Grid Nat)
    (i j : Nat) (hcol : cmap (intensity (gget g i j)) = bgOf cmap) :
    cget (finalColor cmap g) i j = white := by
  by_cases hi : i < g.length
  · by_cases hj : j < (g.getD i []).length
    · rw [finalColor_eq, cget_mapGrid _ _ _ _ hi hj, if_pos hcol]
    · unfold cget
      rw [finalColor_eq, mapGrid_getD _ _ _ hi,
        List.getD_eq_default _ _ (by rw [List.length_map]; omega)]
      rfl
  · unfold cget
    have hlen : (finalColor cmap g).length ≤ i := by
      rw [finalColor_eq, mapGrid_length]
      omega
    rw [List.getD_eq_default _ _ hlen]
    rfl

/-- A concrete colormap under which a non-background label's scaled
intensity collides with the intensity-0 color. -/
def cmapConst : Nat → Color := fun _ => (0, 0, 0)

/-- C3 counterexample: non-background label 1 colorizes to exactly the
intensity-0 color; after the correction both it and the true background
pixel are solid white — equal final colors, not visually distinguished. -/
theorem collision_not_distinguished :
    cmapConst (intensity 1) = bgOf cmapConst ∧ (1 : Nat) ≠ 0 ∧
    finalColor cmapConst [[0, 1]] = [[white, white]] ∧
    cget (finalColor cmapConst [[0, 1]]) 0 1 =
      cget (finalColor cmapConst [[0, 1]]) 0 0 := by
  decide

/-- C3 amended: after the background-correction step, a non-background pixel
whose scaled intensity colorizes to exactly the intensity-0 color ends up
solid white — the same final color as every true background (label 0)
pixel, so such colliding pixels are merged with, not distinguished from,
the background. -/
theorem collision_same_as_background (cmap : Nat → Color) (g : Grid Nat)
    (i j i' j' : Nat)
    (hcol : cmap (intensity (gget g i j)) = bgOf cmap)
    (hbg : gget g i' j' = 0) :
    cget (finalColor cmap g) i j = white ∧
    cget (finalColor cmap g) i' j' = white ∧
    cget (finalColor cmap g) i j = cget (finalColor cmap g) i' j' := by
  have h1 := cget_finalColor_of_collision cmap g i j hcol
  have h2 : cget (finalColor cmap g) i' j' = white := by
    apply cget_finalColor_of_collision
    rw [hbg]
    rfl
  exact ⟨h1, h2, by rw [h1, h2]⟩

theorem collision_same_as_background_witness :
    cmapConst (intensity (gget [[0, 1]] 0 1)) = bgOf cmapConst ∧
    gget [[0, 1]] 0 0 = 0 ∧
    (cget (finalColor cmapConst [[0, 1]]) 0 1 = white ∧
     cget (finalColor cmapConst [[0, 1]]) 0 0 = white ∧
     cget (finalColor cmapConst [[0, 1]]) 0 1 =
       cget (finalColor cmapConst [[0, 1]]) 0 0) :=
  ⟨by decide, by decide,
    collision_same_as_background cmapConst [[0, 1]] 0 1 0 0 (by decide) (by decide)⟩

/-- C7: on an all-zero merged label array the colorizer followed by the
background correction yields an image of the same shape in which every
pixel is exactly solid white, whatever the colormap. -/
theorem allzero_final_white (cmap : Nat → Color) (g : Grid Nat)
    (h : ∀ row ∈ g, ∀ v ∈ row, v = 0) :
    finalColor cmap g = mapGrid (fun _ => white) g := by
  rw [finalColor_eq]
  apply mapGrid_congr
  intro row hrow v hv
  rw [h row hrow v hv]
  simp [intensity, bgOf]

theorem allzero_final_white_witness :
    (∀ row ∈ ([[0, 0], [0, 0]] : Grid Nat), ∀ v ∈ row, v = 0) ∧
    finalColor cmapConst [[0, 0], [0, 0]] =
      mapGrid (fun _ => white) [[0, 0], [0, 0]] :=
  ⟨by decide, allzero_final_white cmapConst _ (by decide)⟩

/-! ## Canvas Compositor  (lines 430-433)

    x, y, w, h = bbox[0].astype(np.int32)
    image_target_bgr = np.full(image.shape, 255, dtype=np.uint8)
    image_target_bgr[y:y + h, x:x + w] = I
-/

/-- The canvas compositing: an H×W canvas filled with solid white
(`np.full(image.shape, 255)`) whose rectangle `[y:y+h, x:x+w]` is
overwritten with the colorized image `img` (of shape (h, w)). -/
def composite (H W x y w h : Nat) (img : Grid Color) : Grid Color :=
  (List.range H).map fun r => (List.range W).map fun c =>
    if y ≤ r ∧ r < y + h ∧ x ≤ c ∧ c < x + w then cget img (r - y) (c - x)
    else white

theorem cget_composite (H W x y w h : Nat) (img : Grid Color) (r c : Nat)
    (hr : r < H) (hc : c < W) :
    cget (composite H W x y w h img) r c =
      if y ≤ r ∧ r < y + h ∧ x ≤ c ∧ c < x + w then cget img (r - y) (c - x)
      else white := by
  have hrow : (composite H W x y w h img).getD r [] =
      (List.range W).map fun c =>
        if y ≤ r ∧ r < y + h ∧ x ≤ c ∧ c < x + w then cget img (r - y) (c - x)
        else white := by
    unfold composite
    rw [List.getD_eq_getElem _ _ (by simpa using hr), List.getElem_map,
      List.getElem_range]
  unfold cget
  rw [hrow, List.getD_eq_getElem _ _ (by simpa using hc), List.getElem_map,
    List.getElem_range]
  rfl

/-- C6: for a bounding box contained in the source image and a colorized
image of shape (h, w), the composited canvas has the full source-image
dimensions (independent of the box size), its rectangle `[y:y+h, x:x+w]`
equals the colorized image, and every pixel outside that rectangle is
solid white. -/
theorem composite_canvas_spec (H W x y w h : Nat) (img : Grid Color)
    (hx : x + w ≤ W) (hy : y + h ≤ H)
    (hlen : img.length = h) (hrows : ∀ row ∈ img, row.length = w) :
    (composite H W x y w h img).length = H ∧
    (∀ row ∈ composite H W x y w h img, row.length = W) ∧
    (∀ r c, y ≤ r → r < y + h → x ≤ c → c < x + w →
      cget (composite H W x y w h img) r c = cget img (r - y) (c - x)) ∧
    (∀ r c, r < H → c < W → ¬ (y ≤ r ∧ r < y + h ∧ x ≤ c ∧ c < x + w) →
      cget (composite H W x y w h img) r c = white) := by
  refine ⟨by simp [composite], ?_, ?_, ?_⟩
  · intro row hrow
    obtain ⟨r, _, rfl⟩ := List.mem_map.mp hrow
    simp
  · intro r c h1 h2 h3 h4
    rw [cget_composite _ _ _ _ _ _ _ _ _ (by omega) (by omega),
      if_pos ⟨h1, h2, h3, h4⟩]
  · intro r c hr hc hout
    rw [cget_composite _ _ _ _ _ _ _ _ _ hr hc, if_neg hout]

theorem composite_canvas_spec_witness :
    (1 + 2 ≤ 5 ∧ 2 + 2 ≤ 4 ∧
      ([[(1, 2, 3), (4, 5, 6)], [(7, 8, 9), (10, 11, 12)]] : Grid Color).length = 2 ∧
      (∀ row ∈ ([[(1, 2, 3), (4, 5, 6)], [(7, 8, 9), (10, 11, 12)]] : Grid Color),
        row.length = 2)) ∧
    ((composite 4 5 1 2 2 2 [[(1, 2, 3), (4, 5, 6)], [(7, 8, 9), (10, 11, 12)]]).length = 4 ∧
     (∀ row ∈ composite 4 5 1 2 2 2 [[(1, 2, 3), (4, 5, 6)], [(7, 8, 9), (10, 11, 12)]],
       row.length = 5) ∧
     (∀ r c, 2 ≤ r → r < 2 + 2 → 1 ≤ c → c < 1 + 2 →
       cget (composite 4 5 1 2 2 2 [[(1, 2, 3), (4, 5, 6)], [(7, 8, 9), (10, 11, 12)]]) r c =
         cget [[(1, 2, 3), (4, 5, 6)], [(7, 8, 9), (10, 11, 12)]] (r - 2) (c - 1)) ∧
     (∀ r c, r < 4 → c < 5 → ¬ (2 ≤ r ∧ r < 2 + 2 ∧ 1 ≤ c ∧ c < 1 + 2) →
       cget (composite 4 5 1 2 2 2 [[(1, 2, 3), (4, 5, 6)], [(7, 8, 9), (10, 11, 12)]]) r c =
         white)) :=
  ⟨⟨by decide, by decide, by decide, by decide⟩,
    composite_canvas_spec 4 5 1 2 2 2 _ (by decide) (by decide) (by decide) (by decide)⟩

/-! ## Write order and failure of the per-image pipeline  (lines 390-443)

    output_orig = np.copy(I); np.save("/content/output_orig.npy", output_orig)
    outline = np.copy(I); outline[outline > 0] = 1
    np.save("/content/output_outline.npy", outline)
    ... colorize ...
    image_target_bgr[y:y + h, x:x + w] = I        # may raise (broadcast)
    np.save("/content/" + ... + "output.npy", I)
    cv2.imwrite("/content/results/mytest.jpg", image_target_bgr)
    cls.generate_bitmaps(...)                      # writes the five .bmp files

The canvas assignment is numpy basic slicing: the slice is clamped to the
canvas bounds and the assignment raises iff the colorized array (shape
(h, w, 3)) fails to broadcast against the clamped target. -/

/-- One disk write performed by the pipeline. -/
inductive WriteEvent
  | numericDump (name : String)
  | rasterWrite (name : String)
deriving DecidableEq

/-- Length of the numpy basic slice `start:stop` over an axis of size
`bound` (slices are clamped, never erroring). -/
def sliceLen (start stop bound : Nat) : Nat := min stop bound - min start bound

/-- numpy broadcast compatibility of a source axis extent against a target
axis extent: they must be equal, or the source extent must be 1. -/
def broadcastDimOk (src tgt : Nat) : Bool := src == tgt || src == 1

/-- Whether `image_target_bgr[y:y+h, x:x+w] = I` succeeds for an H×W
canvas and `I` of shape (h, w, 3). -/
def assignOk (H W x y w h : Nat) : Bool :=
  broadcastDimOk h (sliceLen y (y + h) H) && broadcastDimOk w (sliceLen x (x + w) W)

/-- The ordered disk writes of one image's pipeline run (image shape
(H, W), box (x, y, w, h), label array of shape (h, w)).  The two numpy
dumps of lines 391 and 396 precede the canvas assignment of line 433; if
that assignment raises, processing stops (second component `false`) and
nothing further is written. -/
def showWrites (H W x y w h : Nat) : List WriteEvent × Bool :=
  let pre : List WriteEvent :=
    [.numericDump "output_orig.npy", .numericDump "output_outline.npy"]
  if assignOk H W x y w h then
    (pre ++ [.numericDump "output.npy", .rasterWrite "mytest.jpg",
      .rasterWrite "blank.bmp", .rasterWrite "image.bmp",
      .rasterWrite "image_bw.bmp", .rasterWrite "blank_outline.bmp",
      .rasterWrite "solid_outline.bmp"], true)
  else (pre, false)

/-- C5 counterexample: for the box (0, 1, 4, 4) on a 4×4 image (y + h = 5
exceeds H = 4) the pipeline does raise at the canvas assignment, but the
two numeric-array dumps have already been written — the state is not
unchanged on error. -/
theorem bbox_error_after_dumps :
    1 + 4 > 4 ∧
    (showWrites 4 4 0 1 4 4).2 = false ∧
    (showWrites 4 4 0 1 4 4).1 =
      [.numericDump "output_orig.npy", .numericDump "output_outline.npy"] := by
  refine ⟨by omega, rfl, rfl⟩

/-- C5 amended: for a bounding box exceeding the source image bounds in an
axis whose extent is positive and not 1, the pipeline raises a broadcast
shape-mismatch error at the canvas assignment before any raster artifact
is written — but only after the two numeric-array dumps (raw merged array
and outline mask) have been written. -/
theorem bbox_error_before_rasters (H W x y w h : Nat)
    (hex : (0 < w ∧ w ≠ 1 ∧ W < x + w) ∨ (0 < h ∧ h ≠ 1 ∧ H < y + h)) :
    (showWrites H W x y w h).2 = false ∧
    (showWrites H W x y w h).1 =
      [.numericDump "output_orig.npy", .numericDump "output_outline.npy"] := by
  have hok : assignOk H W x y w h = false := by
    rcases hex with ⟨hw0, hw1, hW⟩ | ⟨hh0, hh1, hH⟩
    · have h2 : broadcastDimOk w (sliceLen x (x + w) W) = false := by
        unfold broadcastDimOk sliceLen
        simp only [Bool.or_eq_false_iff, beq_eq_false_iff_ne, ne_eq]
        omega
      unfold assignOk
      rw [h2, Bool.and_false]
    · have h2 : broadcastDimOk h (sliceLen y (y + h) H) = false := by
        unfold broadcastDimOk sliceLen
        simp only [Bool.or_eq_false_iff, beq_eq_false_iff_ne, ne_eq]
        omega
      unfold assignOk
      rw [h2, Bool.false_and]
  constructor <;> simp [showWrites, hok]

theorem bbox_error_before_rasters_witness :
    ((0 < 3 ∧ (3 : Nat) ≠ 1 ∧ 5 < 4 + 3) ∨ (0 < 2 ∧ (2 : Nat) ≠ 1 ∧ 6 < 0 + 2)) ∧
    ((showWrites 6 5 4 0 3 2).2 = false ∧
     (showWrites 6 5 4 0 3 2).1 =
       [.numericDump "output_orig.npy", .numericDump "output_outline.npy"]) :=
  ⟨Or.inl ⟨by decide, by decide, by decide⟩,
    bbox_error_before_rasters 6 5 4 0 3 2 (Or.inl ⟨by decide, by decide, by decide⟩)⟩

/-! ## Upscaler  (double_image, lines 279-288, and generate_bitmaps, lines 300-344)

    scale_percent = 200
    width = int(image.shape[1] * scale_percent / 100)
    height = int(image.shape[0] * scale_percent / 100)
    image = cv2.resize(image, (width, height), interpolation=cv2.INTER_AREA)

`image.shape[k] * 200 / 100` is Python float division whose true value
`2·dim` is an integer exactly representable, so `int(...)` truncation
equals `Nat` division. -/

/-- `int(dim * 200 / 100)`. -/
def doubleDim (n : Nat) : Nat := n * 200 / 100

theorem doubleDim_eq_two_mul (n : Nat) : doubleDim n = 2 * n := by
  unfold doubleDim
  rw [show n * 200 = 2 * n * 100 by ring]
  exact Nat.mul_div_cancel _ (by norm_num)

/-- Spatial dimensions (height, width) produced by `double_image`. -/
def double_image (d : Nat × Nat) : Nat × Nat := (doubleDim d.1, doubleDim d.2)

/-- A raster artifact written by `generate_bitmaps` and handed to
`generate_vector`: its file name and spatial dimensions at that moment. -/
structure Emitted where
  name : String
  dims : Nat × Nat
deriving DecidableEq

/-- Dimension flow of `generate_bitmaps` for inputs of shape `d` = (h, w):
`blank`, `blank_outline` and `solid_outline` start as zero canvases of the
input image's shape; `drawContours` and `bitwise_not` work in place and
preserve shape; `cvtColor` to grayscale preserves the spatial shape; every
artifact goes through `double_image` before its `imwrite`/`generate_vector`
pair (the grayscale one by being derived from the already-doubled color
image). -/
def generate_bitmaps_emits (d : Nat × Nat) : List Emitted :=
  [⟨"blank.bmp", double_image d⟩,
   ⟨"image.bmp", double_image d⟩,
   ⟨"image_bw.bmp", double_image d⟩,
   ⟨"blank_outline.bmp", double_image d⟩,
   ⟨"solid_outline.bmp", double_image d⟩]

/-- C9: for positive dimensions the percent-based computation is exact
doubling — `int(dim·200/100) = 2·dim` — and every artifact emitted by
`generate_bitmaps` has exactly doubled height and width before it is handed
to vectorization. -/
theorem upscale_doubles (h w : Nat) (hh : 0 < h) (hw : 0 < w) :
    doubleDim h = 2 * h ∧ doubleDim w = 2 * w ∧
    ∀ e ∈ generate_bitmaps_emits (h, w), e.dims = (2 * h, 2 * w) := by
  refine ⟨doubleDim_eq_two_mul h, doubleDim_eq_two_mul w, ?_⟩
  intro e he
  simp only [generate_bitmaps_emits, List.mem_cons, List.not_mem_nil, or_false] at he
  rcases he with rfl | rfl | rfl | rfl | rfl <;>
    simp [double_image, doubleDim_eq_two_mul]

theorem upscale_doubles_witness :
    (0 < 3 ∧ 0 < 5) ∧
    (doubleDim 3 = 2 * 3 ∧ doubleDim 5 = 2 * 5 ∧
     ∀ e ∈ generate_bitmaps_emits (3, 5), e.dims = (2 * 3, 2 * 5)) :=
  ⟨⟨by decide, by decide⟩, upscale_doubles 3 5 (by decide) (by decide)⟩

/-! ## ContourExtractor frame  (find_body_part, lines 291-297)

    arr = body_parts.copy()
    arr[arr != body_part_index] = 0
    arr[arr == body_part_index] = 255
    contours, hierarchy = cv2.findContours(arr, cv2.RETR_TREE, cv2.CHAIN_APPROX_SIMPLE)
    return contours

numpy arrays alias by reference, so arrays live in a `Store` (heap) indexed
by reference; `copy()` allocates a fresh reference at the end of the store
and the two masked assignments update only that fresh reference.
`cv2.findContours` is external, modelled as the abstract tracer `fc`. -/

/-- A traced contour: a closed polygon as a list of integer points. -/
abbrev Contour := List (Nat × Nat)

/-- A heap of label arrays; a numpy array variable is an index into it. -/
abbrev Store := List (Grid Nat)

/-- Dereference: the array a reference currently points at. -/
def Store.get (s : Store) (r : Nat) : Grid Nat := s.getD r []

/-- `arr[arr != idx] = 0`, pointwise over the array. -/
def maskNotEqZero (idx : Nat) (g : Grid Nat) : Grid Nat :=
  mapGrid (fun v => if v ≠ idx then 0 else v) g

/-- `arr[arr == idx] = 255`, pointwise over the array. -/
def maskEq255 (idx : Nat) (g : Grid Nat) : Grid Nat :=
  mapGrid (fun v => if v = idx then 255 else v) g

/-- The two in-place masked assignments applied to the private copy. -/
def threshold (idx : Nat) (g : Grid Nat) : Grid Nat :=
  maskEq255 idx (maskNotEqZero idx g)

/-- `find_body_part(body_parts, body_part_index)` against the store: copy
the argument array into a fresh reference, threshold that copy in place,
and hand the thresholded copy to the external tracer `fc`.  Returns the
traced contours and the store after the call. -/
def find_body_part (fc : Grid Nat → List Contour) (s : Store) (r idx : Nat) :
    List Contour × Store :=
  let s1 := s ++ [Store.get s r]
  let s2 := s1.set s.length (maskNotEqZero idx (Store.get s1 s.length))
  let s3 := s2.set s.length (maskEq255 idx (Store.get s2 s.length))
  (fc (Store.get s3 s.length), s3)

theorem store_get_append_self (s : Store) (g : Grid Nat) :
    Store.get (s ++ [g]) s.length = g := by
  induction s with
  | nil => rfl
  | cons a t ih =>
    show Store.get (a :: (t ++ [g])) (t.length + 1) = g
    simp only [Store.get, List.getD_cons_succ]
    exact ih

theorem store_get_append (s : Store) (g : Grid Nat) :
    ∀ r, r < s.length → Store.get (s ++ [g]) r = Store.get s r := by
  induction s with
  | nil =>
    intro r hr
    simp at hr
  | cons a t ih =>
    intro r hr
    cases r with
    | zero => rfl
    | succ n =>
      simp only [List.cons_append, Store.get, List.getD_cons_succ]
      exact ih n (by simp at hr; omega)

theorem store_set_append (s : Store) (a b : Grid Nat) :
    (s ++ [a]).set s.length b = s ++ [b] := by
  induction s with
  | nil => rfl
  | cons x t ih =>
    show x :: ((t ++ [a]).set t.length b) = x :: (t ++ [b])
    rw [ih]

/-- Computation of one `find_body_part` call: it returns the contours of
the thresholded copy of the dereferenced argument, and the store merely
grows by the discarded private copy. -/
theorem find_body_part_eq (fc : Grid Nat → List Contour) (s : Store) (r idx : Nat) :
    find_body_part fc s r idx =
      (fc (threshold idx (Store.get s r)), s ++ [threshold idx (Store.get s r)]) := by
  simp only [find_body_part, threshold]
  rw [store_get_append_self, store_set_append, store_get_append_self,
    store_set_append, store_get_append_self]

/-- `for i in range(1, 24)` of `generate_bitmaps`: the 23 per-part label
values extracted one after the other. -/
def partIndices : List Nat := List.range' 1 23

/-- The successive `find_body_part` calls of `generate_bitmaps`, threading
the store. -/
def partLoop (fc : Grid Nat → List Contour) :
    List Nat → Store → Nat → List (List Contour) × Store
  | [], s, _ => ([], s)
  | i :: rest, s, r =>
    ((find_body_part fc s r i).1 :: (partLoop fc rest (find_body_part fc s r i).2 r).1,
     (partLoop fc rest (find_body_part fc s r i).2 r).2)

theorem partLoop_frame (fc : Grid Nat → List Contour) (idxs : List Nat) :
    ∀ (s : Store) (r : Nat), r < s.length →
      (partLoop fc idxs s r).1 =
        idxs.map (fun i => fc (threshold i (Store.get s r))) ∧
      Store.get (partLoop fc idxs s r).2 r = Store.get s r := by
  induction idxs with
  | nil =>
    intro s r hr
    exact ⟨rfl, rfl⟩
  | cons i rest ih =>
    intro s r hr
    have hfe := find_body_part_eq fc s r i
    have hget : Store.get (s ++ [threshold i (Store.get s r)]) r = Store.get s r :=
      store_get_append s _ r hr
    have hlen : r < (s ++ [threshold i (Store.get s r)]).length := by
      simp
      omega
    obtain ⟨ih1, ih2⟩ := ih (s ++ [threshold i (Store.get s r)]) r hlen
    simp only [partLoop, hfe, List.map_cons]
    exact ⟨by rw [ih1, hget], by rw [ih2, hget]⟩

/-- C10: `find_body_part` thresholds a private copy, so the array passed in
is unchanged in the store after the call and the call returns the contours
of the threshold of that unchanged array; consequently the 23 successive
per-part extractions of `generate_bitmaps` all observe the same, unmodified
merged label array — each returns the contours of the threshold of the
original array — and that array is still unchanged afterwards for the
silhouette extraction. -/
theorem find_body_part_leaves_input_unchanged (fc : Grid Nat → List Contour)
    (s : Store) (r idx : Nat) (hr : r < s.length) :
    Store.get (find_body_part fc s r idx).2 r = Store.get s r ∧
    (find_body_part fc s r idx).1 = fc (threshold idx (Store.get s r)) ∧
    (partLoop fc partIndices s r).1 =
      partIndices.map (fun i => fc (threshold i (Store.get s r))) ∧
    Store.get (partLoop fc partIndices s r).2 r = Store.get s r := by
  obtain ⟨l1, l2⟩ := partLoop_frame fc partIndices s r hr
  refine ⟨?_, ?_, l1, l2⟩
  · rw [find_body_part_eq]
    exact store_get_append s _ r hr
  · rw [find_body_part_eq]

theorem find_body_part_leaves_input_unchanged_witness :
    (0 : Nat) < ([[[1, 2], [3, 0]]] : Store).length ∧
    (Store.get (find_body_part (fun g => [[(g.length, 0)]]) [[[1, 2], [3, 0]]] 0 3).2 0 =
        Store.get [[[1, 2], [3, 0]]] 0 ∧
      (find_body_part (fun g => [[(g.length, 0)]]) [[[1, 2], [3, 0]]] 0 3).1 =
        (fun g => [[(g.length, 0)]]) (threshold 3 (Store.get [[[1, 2], [3, 0]]] 0)) ∧
      (partLoop (fun g => [[(g.length, 0)]]) partIndices [[[1, 2], [3, 0]]] 0).1 =
        partIndices.map
          (fun i => (fun g => [[(g.length, 0)]]) (threshold i (Store.get [[[1, 2], [3, 0]]] 0))) ∧
      Store.get (partLoop (fun g => [[(g.length, 0)]]) partIndices [[[1, 2], [3, 0]]] 0).2 0 =
        Store.get [[[1, 2], [3, 0]]] 0) :=
  ⟨by decide,
    find_body_part_leaves_input_unchanged (fun g => [[(g.length, 0)]])
      [[[1, 2], [3, 0]]] 0 3 (by decide)⟩
